import Mathlib

/-!
Shallow embedding of the audio-synthesis and melody-generation core of
`ai_music.py` (AI Music Studio).  Python floats are modelled by real numbers
for sample values and by rationals where exact integer arithmetic decides a
claim (buffer lengths).  Randomness (`random.choice`, `random.uniform`) is
modelled by an explicit stream of draws passed as a function argument.
-/

namespace AIMusic

/-- Python 3 `round(q)` to an integer: round half to even (banker's
rounding), computed exactly on a rational via its floor `q.num.fdiv q.den`
and fractional remainder `q.num.fmod q.den` over `q.den`. -/
def pyRound (q : ℚ) : ℤ :=
  let f := q.num.fdiv q.den
  let r := q.num.fmod q.den
  if 2 * r < (q.den : ℤ) then f
  else if (q.den : ℤ) < 2 * r then f + 1
  else if Even f then f else f + 1

/-- Constant `SAMPLE_RATE = 44100` (ai_music.py line 66). -/
def SAMPLE_RATE : ℕ := 44100

/-- Sample count `num_samples = int(sample_rate * duration)` (ai_music.py line 69):
Python `int()` truncates toward zero, and on the exact rational product
`sample_rate * duration = (sample_rate * duration.num) / duration.den`
that truncation is the truncated integer division `tdiv`
(`num_samples_eq_floor` below identifies it with `⌊sample_rate * duration⌋`
for nonnegative durations). -/
def num_samples (sample_rate : ℕ) (duration : ℚ) : ℕ :=
  (((sample_rate : ℤ) * duration.num).tdiv (duration.den : ℤ)).toNat

/-- Python `random.choice(l)` modelled by one random draw `r`: the element at index
`r % len(l)` (uniform when `r` is uniform on a multiple of `len(l)`). -/
def pyChoice (l : List String) (r : ℕ) : String := l.getD (r % l.length) ""

/-- The `waveform == "sine"` branch: `math.sin(2 * math.pi * frequency * t)`. -/
noncomputable def sine_wave (frequency t : ℝ) : ℝ :=
  Real.sin (2 * Real.pi * frequency * t)

/-- The `waveform == "square"` branch:
`1.0 if math.sin(2 * math.pi * frequency * t) >= 0 else -1.0`. -/
noncomputable def square_wave (frequency t : ℝ) : ℝ :=
  if 0 ≤ Real.sin (2 * Real.pi * frequency * t) then 1 else -1

/-- The `waveform == "saw"` branch:
`2 * (t * frequency - math.floor(0.5 + t * frequency))`. -/
noncomputable def saw_wave (frequency t : ℝ) : ℝ :=
  2 * (t * frequency - ⌊0.5 + t * frequency⌋)

/-- The `waveform == "triangle"` branch:
`2 * abs(2 * (t * frequency - math.floor(0.5 + t * frequency))) - 1`. -/
noncomputable def triangle_wave (frequency t : ℝ) : ℝ :=
  2 * |2 * (t * frequency - ⌊0.5 + t * frequency⌋)| - 1

/-- Function `piano_wave(freq, t)` (ai_music.py lines 99-105): harmonic stack times
exponential decay envelope. -/
noncomputable def piano_env (t : ℝ) : ℝ := Real.exp (-3 * t)

noncomputable def piano_wave (freq t : ℝ) : ℝ :=
  (1.0 * Real.sin (2 * Real.pi * freq * t)
    + 0.5 * Real.sin (2 * Real.pi * freq * 2 * t)
    + 0.25 * Real.sin (2 * Real.pi * freq * 3 * t)) * piano_env t

/-- Function `flute_wave(freq, t)` (ai_music.py lines 108-110). -/
noncomputable def flute_env (t : ℝ) : ℝ := Real.exp (-0.8 * t)

noncomputable def flute_wave (freq t : ℝ) : ℝ :=
  Real.sin (2 * Real.pi * freq * t) * flute_env t

/-- Function `pad_wave(freq, t)` (ai_music.py lines 113-118): sustained, no envelope. -/
noncomputable def pad_wave (freq t : ℝ) : ℝ :=
  0.6 * Real.sin (2 * Real.pi * freq * t)
    + 0.3 * Real.sin (2 * Real.pi * 0.5 * freq * t)
    + 0.2 * Real.sin (2 * Real.pi * 1.5 * freq * t)

/-- Function `bass_wave(freq, t)` (ai_music.py lines 121-122). -/
noncomputable def bass_env (t : ℝ) : ℝ := Real.exp (-1.5 * t)

noncomputable def bass_wave (freq t : ℝ) : ℝ :=
  Real.sin (2 * Real.pi * (freq * 0.5) * t) * bass_env t

/-- Dispatch `instrument_wave(name, freq, t)` (ai_music.py lines 125-136); the name is
lower-cased first and an unrecognized name falls back to a pure sine. -/
noncomputable def instrument_wave (name : String) (freq t : ℝ) : ℝ :=
  if name.toLower = "piano" then piano_wave freq t
  else if name.toLower = "flute" then flute_wave freq t
  else if name.toLower = "pad" then pad_wave freq t
  else if name.toLower = "bass" then bass_wave freq t
  else Real.sin (2 * Real.pi * freq * t)

/-- The waveform dispatch of `generate_tone` (ai_music.py lines 78-89); the
`noise` branch (`random.uniform(-1.0, 1.0)`) is modelled by the draw stream
`noise` indexed by the sample index, and an unknown waveform yields `0.0`. -/
noncomputable def osc_value (noise : ℕ → ℝ) (frequency : ℝ) (waveform : String)
    (i : ℕ) (t : ℝ) : ℝ :=
  if waveform = "sine" then sine_wave frequency t
  else if waveform = "square" then square_wave frequency t
  else if waveform = "saw" then saw_wave frequency t
  else if waveform = "triangle" then triangle_wave frequency t
  else if waveform = "noise" then noise i
  else 0.0

/-- One sample of `generate_tone` (ai_music.py lines 72-91): `t = i /
sample_rate`; a truthy `instrument` (a non-empty string) overrides the
waveform; the value is multiplied by `volume`. -/
noncomputable def sample_value (noise : ℕ → ℝ) (frequency : ℝ) (volume : ℝ)
    (waveform : String) (sample_rate : ℕ) (instrument : Option String)
    (i : ℕ) : ℝ :=
  let t : ℝ := (i : ℝ) / (sample_rate : ℝ)
  (match instrument with
   | some ins =>
     if ins = "" then osc_value noise frequency waveform i t
     else instrument_wave ins frequency t
   | none => osc_value noise frequency waveform i t) * volume

/-- Function `generate_tone(frequency, duration, volume, waveform, sample_rate,
instrument)` (ai_music.py lines 68-93): a buffer of `int(sample_rate *
duration)` samples. -/
noncomputable def generate_tone (noise : ℕ → ℝ) (frequency : ℝ) (duration : ℚ)
    (volume : ℝ) (waveform : String) (sample_rate : ℕ)
    (instrument : Option String) : List ℝ :=
  (List.range (num_samples sample_rate duration)).map
    (sample_value noise frequency volume waveform sample_rate instrument)

/-- The float-to-PCM conversion of `save_wav` (ai_music.py lines 152-154):
`np.clip(audio, -1.0, 1.0) * 32767` per sample (before the int16 cast). -/
def save_wav_sample (x : ℝ) : ℝ := min 1 (max (-1) x) * 32767

/-- Table `NOTE_FREQ` (ai_music.py lines 228-232), a lookup returning `none` for an
unknown note name. -/
def NOTE_FREQ (n : String) : Option ℚ :=
  if n = "C4" then some (261.63 : ℚ)
  else if n = "D4" then some (293.66 : ℚ)
  else if n = "E4" then some (329.63 : ℚ)
  else if n = "F4" then some (349.23 : ℚ)
  else if n = "G4" then some (392.00 : ℚ)
  else if n = "A4" then some (440.00 : ℚ)
  else if n = "B4" then some (493.88 : ℚ)
  else if n = "C5" then some (523.25 : ℚ)
  else if n = "A3" then some (220.00 : ℚ)
  else if n = "Bb4" then some (466.16 : ℚ)
  else if n = "Db4" then some (277.18 : ℚ)
  else if n = "Gb4" then some (369.99 : ℚ)
  else none

/-- Constant `training_melody` (ai_music.py lines 234-239): the fixed 18-note training
sequence. -/
def training_melody : List String :=
  ["C4", "D4", "E4", "G4", "A4",
   "A4", "G4", "E4", "D4", "C4",
   "C4", "E4", "G4", "C5",
   "G4", "E4", "D4", "C4"]

/-- Function `build_markov_chain(melody)` (ai_music.py lines 242-248) viewed as a
lookup: the successor list of `curr` is the ordered list of notes that
immediately follow an occurrence of `curr`; the dictionary has `curr` as a
key exactly when this list is non-empty. -/
def build_markov_chain (melody : List String) (curr : String) : List String :=
  ((melody.zip melody.tail).filter (fun p => p.1 = curr)).map Prod.snd

/-- Constant `MARKOV = build_markov_chain(training_melody)` (ai_music.py line 250). -/
def MARKOV (curr : String) : List String := build_markov_chain training_melody curr

/-- The loop body of `generate_ai_melody` (ai_music.py lines 256-261):
emit `n` more notes starting from `current`, consuming draws `rand k`,
`rand (k+1)`, ... . `current in MARKOV` is `MARKOV current ≠ []`. -/
def ai_melody_from (rand : ℕ → ℕ) : ℕ → ℕ → String → List String
  | 0, _, _ => []
  | n + 1, k, current =>
    current ::
      ai_melody_from rand n (k + 1)
        (if MARKOV current ≠ [] then pyChoice (MARKOV current) (rand k)
         else pyChoice training_melody (rand k))

/-- Function `generate_ai_melody(length)` (ai_music.py lines 253-262): the start note
is `random.choice(training_melody)` (draw `rand 0`). -/
def generate_ai_melody (rand : ℕ → ℕ) (length : ℕ) : List String :=
  ai_melody_from rand length 1 (pyChoice training_melody (rand 0))

/-- Function `melody_to_frequencies(melody)` (ai_music.py lines 265-266): unknown
notes fall back to `440.0`. -/
def melody_to_frequencies (melody : List String) : List ℚ :=
  melody.map (fun note => (NOTE_FREQ note).getD 440)

/-- Table `emotion_patterns` (ai_music.py lines 272-277), a lookup returning `none`
for an unknown emotion label. -/
def emotion_patterns (e : String) : Option (List String) :=
  if e = "happy" then some ["C4", "E4", "G4", "C5", "A4", "G4", "E4"]
  else if e = "sad" then some ["A3", "C4", "D4", "F4", "E4", "D4", "C4"]
  else if e = "romantic" then some ["C4", "E4", "G4", "B4", "A4", "G4", "E4", "D4"]
  else if e = "suspense" then some ["C4", "Db4", "E4", "Gb4", "A4", "Bb4", "C5"]
  else none

/-- Function `generate_emotional_melody(emotion, length)` (ai_music.py lines 280-282):
`base = emotion_patterns.get(emotion, emotion_patterns['happy'])`, then
`length` independent draws from `base`. -/
def generate_emotional_melody (rand : ℕ → ℕ) (emotion : String) (length : ℕ) :
    List String :=
  let base := (emotion_patterns emotion).getD ((emotion_patterns "happy").getD [])
  (List.range length).map (fun k => pyChoice base (rand k))

/-- The next-note relation the Markov generator follows between consecutive
output notes: a recorded transition when the current note is a key of
`MARKOV`, otherwise a restart from the full training sequence. -/
def markov_step (a b : String) : Prop :=
  if MARKOV a ≠ [] then b ∈ MARKOV a else b ∈ training_melody

instance (a b : String) : Decidable (markov_step a b) := by
  unfold markov_step; infer_instance

/-! ### Helper lemmas -/

/-- For a nonnegative duration, the sample count `int(sample_rate * duration)`
is the floor of the exact product. -/
theorem num_samples_eq_floor (sr : ℕ) (dur : ℚ) (h : 0 ≤ dur) :
    num_samples sr dur = (⌊(sr : ℚ) * dur⌋).toNat := by
  unfold num_samples
  have hnum : (0 : ℤ) ≤ dur.num := Rat.num_nonneg.mpr h
  have h1 : ((sr : ℤ) * dur.num).tdiv (dur.den : ℤ) =
      ((sr : ℤ) * dur.num) / (dur.den : ℤ) :=
    Int.tdiv_eq_ediv (by positivity) (by positivity)
  rw [h1]
  have key : (sr : ℚ) * dur = (((sr : ℤ) * dur.num : ℤ) : ℚ) / ((dur.den : ℕ) : ℚ) := by
    conv_lhs => rw [← Rat.num_div_den dur]
    push_cast
    ring
  rw [key, Rat.floor_intCast_div_natCast]

/-- The buffer returned by `generate_tone` always has exactly
`num_samples sample_rate duration` samples. -/
theorem generate_tone_length (noise : ℕ → ℝ) (frequency : ℝ) (duration : ℚ)
    (volume : ℝ) (waveform : String) (sample_rate : ℕ)
    (instrument : Option String) :
    (generate_tone noise frequency duration volume waveform sample_rate
      instrument).length = num_samples sample_rate duration := by
  unfold generate_tone
  rw [List.length_map, List.length_range]

/-- Python `random.choice` on a non-empty list returns an element of the list. -/
theorem pyChoice_mem (l : List String) (r : ℕ) (h : l ≠ []) :
    pyChoice l r ∈ l := by
  unfold pyChoice
  have hlen : 0 < l.length := List.length_pos.mpr h
  have hlt : r % l.length < l.length := Nat.mod_lt r hlen
  rw [List.getD_eq_getElem l "" hlt]
  exact List.getElem_mem hlt

theorem training_melody_ne_nil : training_melody ≠ [] := by decide

/-- Every successor recorded in a Markov chain built from a melody is itself
a note of that melody. -/
theorem mem_build_markov_chain {melody : List String} {curr x : String}
    (hx : x ∈ build_markov_chain melody curr) : x ∈ melody := by
  unfold build_markov_chain at hx
  obtain ⟨p, hp, rfl⟩ := List.mem_map.mp hx
  have hzip := List.of_mem_zip (List.mem_of_mem_filter hp)
  exact List.mem_of_mem_tail hzip.2

theorem ai_melody_from_length (rand : ℕ → ℕ) :
    ∀ (n k : ℕ) (cur : String), (ai_melody_from rand n k cur).length = n := by
  intro n
  induction n with
  | zero => intro k cur; rfl
  | succ m ih => intro k cur; simp [ai_melody_from, ih]

theorem ai_melody_from_head (rand : ℕ → ℕ) (n k : ℕ) (cur : String)
    (h : n ≠ 0) : (ai_melody_from rand n k cur).head? = some cur := by
  cases n with
  | zero => exact absurd rfl h
  | succ m => rfl

/-- The next note emitted after `cur` is related to `cur` by `markov_step`. -/
theorem markov_step_choice (rand : ℕ → ℕ) (k : ℕ) (cur : String) :
    markov_step cur
      (if MARKOV cur ≠ [] then pyChoice (MARKOV cur) (rand k)
       else pyChoice training_melody (rand k)) := by
  unfold markov_step
  by_cases h : MARKOV cur = []
  · simp only [h, ne_eq, not_true_eq_false, if_false]
    exact pyChoice_mem _ _ training_melody_ne_nil
  · simp only [ne_eq, h, not_false_eq_true, if_true]
    exact pyChoice_mem _ _ h

theorem ai_melody_from_chain (rand : ℕ → ℕ) :
    ∀ (n k : ℕ) (cur : String),
      List.Chain' markov_step (ai_melody_from rand n k cur) := by
  intro n
  induction n with
  | zero => intro k cur; simp [ai_melody_from]
  | succ m ih =>
    intro k cur
    rw [ai_melody_from, List.chain'_cons']
    refine ⟨?_, ih (k + 1) _⟩
    intro b hb
    cases m with
    | zero => simp [ai_melody_from] at hb
    | succ m' =>
      rw [ai_melody_from_head rand _ _ _ (Nat.succ_ne_zero m')] at hb
      obtain rfl : b = _ := Option.some_injective _ hb.symm
      exact markov_step_choice rand k cur

/-- Every note the Markov generator's loop can emit belongs to the training
sequence. -/
theorem ai_melody_from_mem (rand : ℕ → ℕ) :
    ∀ (n k : ℕ) (cur : String), cur ∈ training_melody →
      ∀ x ∈ ai_melody_from rand n k cur, x ∈ training_melody := by
  intro n
  induction n with
  | zero => intro k cur _ x hx; simp [ai_melody_from] at hx
  | succ m ih =>
    intro k cur hcur x hx
    rw [ai_melody_from, List.mem_cons] at hx
    rcases hx with rfl | hx
    · exact hcur
    · refine ih (k + 1) _ ?_ x hx
      by_cases h : MARKOV cur = []
      · simp only [ne_eq, h, not_true_eq_false, if_false]
        exact pyChoice_mem _ _ training_melody_ne_nil
      · simp only [ne_eq, h, not_false_eq_true, if_true]
        exact mem_build_markov_chain (pyChoice_mem _ _ h)

/-! ### C1: buffer length of `generate_tone` -/

/-- C1, counterexample: the claim says the buffer length equals
`round(sample_rate * duration)`; at `sample_rate = 2`, `duration = 7/8` the
code returns `int(2 * 7/8) = int(1.75) = 1` sample while
`round(1.75) = 2`. -/
theorem c1_counterexample :
    ((generate_tone (fun _ => 0) 440 (mkRat 7 8) ((1 : ℝ)/2) "sine" 2
        none).length : ℤ) ≠ pyRound (((2 : ℕ) : ℚ) * mkRat 7 8) := by
  have hprod : ((2 : ℕ) : ℚ) * mkRat 7 8 = mkRat 7 4 := by
    rw [Rat.mkRat_eq_div, Rat.mkRat_eq_div]
    norm_num
  rw [generate_tone_length, hprod]
  decide

/-- C1, amended: for every frequency, nonnegative duration, volume, waveform,
instrument and sample rate, the buffer returned by `generate_tone` has length
`int(sample_rate * duration)`, i.e. `⌊sample_rate * duration⌋` (truncation,
which can be one less than `round(sample_rate * duration)`). -/
theorem c1_generate_tone_length_floor (noise : ℕ → ℝ) (frequency : ℝ)
    (duration : ℚ) (volume : ℝ) (waveform : String) (sample_rate : ℕ)
    (instrument : Option String) (h : 0 ≤ duration) :
    (generate_tone noise frequency duration volume waveform sample_rate
      instrument).length = (⌊(sample_rate : ℚ) * duration⌋).toNat := by
  rw [generate_tone_length, num_samples_eq_floor _ _ h]

/-- C1, witness for the amended theorem at `sample_rate = 2`,
`duration = 7/8`. -/
theorem c1_witness :
    (0 : ℚ) ≤ mkRat 7 8 ∧
      (generate_tone (fun _ => 0) 440 (mkRat 7 8) ((1 : ℝ)/2) "sine" 2
        none).length = (⌊((2 : ℕ) : ℚ) * mkRat 7 8⌋).toNat :=
  ⟨by decide,
   c1_generate_tone_length_floor (fun _ => 0) 440 (mkRat 7 8) ((1 : ℝ)/2)
     "sine" 2 none (by decide)⟩

/-! ### C2: Markov keys of the training sequence -/

/-- C2, counterexample: the claim asserts some training note (in particular
the final note) is not a key of the Markov model; in fact no such note
exists — every note of the 18-note training sequence has a non-empty
successor list (the final note `'C4'` also occurs at earlier positions). -/
theorem c2_counterexample : ¬ ∃ n ∈ training_melody, MARKOV n = [] := by
  decide

/-- C2, amended: every note of the fixed 18-note training sequence appears
as a key of the Markov model built from it (it has a non-empty recorded
outgoing-transition list), because each distinct note — including the
final note `'C4'` — also occurs at some non-final position. -/
theorem c2_every_training_note_is_key :
    ∀ n ∈ training_melody, MARKOV n ≠ [] := by decide

/-- C2, witness: the training sequence's final note `'C4'` is a key. -/
theorem c2_witness : "C4" ∈ training_melody ∧ MARKOV "C4" ≠ [] :=
  ⟨by decide, c2_every_training_note_is_key "C4" (by decide)⟩

/-! ### C3: the Markov melody generator is total -/

/-- C3: for every draw stream and every length `L`, `generate_ai_melody`
returns exactly `L` notes (it is a total function — it never halts early);
the start note is drawn from the full training sequence, and every
consecutive pair follows `markov_step`: a recorded transition when the
current note is a Markov key, otherwise a restart drawn from the full
training sequence (not from the key set). -/
theorem c3_generate_ai_melody_total (rand : ℕ → ℕ) (L : ℕ) :
    (generate_ai_melody rand L).length = L ∧
      (∀ x, (generate_ai_melody rand L).head? = some x →
        x ∈ training_melody) ∧
      List.Chain' markov_step (generate_ai_melody rand L) := by
  refine ⟨ai_melody_from_length rand L 1 _, ?_, ai_melody_from_chain rand L 1 _⟩
  intro x hx
  cases L with
  | zero => simp [generate_ai_melody, ai_melody_from] at hx
  | succ m =>
    unfold generate_ai_melody at hx
    rw [ai_melody_from_head rand _ _ _ (Nat.succ_ne_zero m)] at hx
    obtain rfl : x = _ := Option.some_injective _ hx.symm
    exact pyChoice_mem _ _ training_melody_ne_nil

/-- C3, witness: with the all-zero draw stream, `generate_ai_melody 5` has
exactly 5 notes. -/
theorem c3_witness : (generate_ai_melody (fun _ => 0) 5).length = 5 :=
  (c3_generate_ai_melody_total (fun _ => 0) 5).1

/-! ### C4: oscillator sample range -/

/-- The sawtooth phase `t * f - ⌊0.5 + t * f⌋` lies in `[-1/2, 1/2)`. -/
theorem saw_phase_bounds (f t : ℝ) :
    -(1/2 : ℝ) ≤ t * f - ⌊(0.5 : ℝ) + t * f⌋ ∧
      t * f - (⌊(0.5 : ℝ) + t * f⌋ : ℝ) < 1/2 := by
  constructor
  · have h := Int.floor_le ((0.5 : ℝ) + t * f)
    linarith
  · have h := Int.lt_floor_add_one ((0.5 : ℝ) + t * f)
    linarith

/-- C4: for every frequency and every time offset `t ≥ 0`, the sine, square
and triangle oscillator samples lie in `[-1, 1]`; the square sample is
exactly `1` when `sin(2π·f·t) ≥ 0` and exactly `-1` otherwise, and is never
`0`. -/
theorem c4_oscillator_range (f t : ℝ) (_ht : 0 ≤ t) :
    sine_wave f t ∈ Set.Icc (-1 : ℝ) 1 ∧
      square_wave f t ∈ Set.Icc (-1 : ℝ) 1 ∧
      triangle_wave f t ∈ Set.Icc (-1 : ℝ) 1 ∧
      ((0 ≤ Real.sin (2 * Real.pi * f * t) ∧ square_wave f t = 1) ∨
        (Real.sin (2 * Real.pi * f * t) < 0 ∧ square_wave f t = -1)) ∧
      square_wave f t ≠ 0 := by
  have hsq : (0 ≤ Real.sin (2 * Real.pi * f * t) ∧ square_wave f t = 1) ∨
      (Real.sin (2 * Real.pi * f * t) < 0 ∧ square_wave f t = -1) := by
    unfold square_wave
    by_cases h : 0 ≤ Real.sin (2 * Real.pi * f * t)
    · exact Or.inl ⟨h, if_pos h⟩
    · exact Or.inr ⟨lt_of_not_le h, if_neg h⟩
  refine ⟨⟨Real.neg_one_le_sin _, Real.sin_le_one _⟩, ?_, ?_, hsq, ?_⟩
  · rcases hsq with ⟨_, h⟩ | ⟨_, h⟩ <;> rw [h] <;> constructor <;> norm_num
  · obtain ⟨hlo, hhi⟩ := saw_phase_bounds f t
    unfold triangle_wave
    have habs : |2 * (t * f - (⌊(0.5 : ℝ) + t * f⌋ : ℝ))| ≤ 1 := by
      rw [abs_le]
      constructor <;> linarith
    constructor
    · have := abs_nonneg (2 * (t * f - (⌊(0.5 : ℝ) + t * f⌋ : ℝ)))
      linarith
    · linarith
  · rcases hsq with ⟨_, h⟩ | ⟨_, h⟩ <;> rw [h] <;> norm_num

/-- C4, witness at `f = 0`, `t = 0`. -/
theorem c4_witness :
    (0 : ℝ) ≤ 0 ∧
      (sine_wave 0 0 ∈ Set.Icc (-1 : ℝ) 1 ∧
        square_wave 0 0 ∈ Set.Icc (-1 : ℝ) 1 ∧
        triangle_wave 0 0 ∈ Set.Icc (-1 : ℝ) 1 ∧
        ((0 ≤ Real.sin (2 * Real.pi * 0 * 0) ∧ square_wave 0 0 = 1) ∨
          (Real.sin (2 * Real.pi * 0 * 0) < 0 ∧ square_wave 0 0 = -1)) ∧
        square_wave 0 0 ≠ 0) :=
  ⟨le_refl 0, c4_oscillator_range 0 0 (le_refl 0)⟩

/-! ### C5: the 440 Hz sine end-to-end example -/

/-- Indexing a mapped range with a default. -/
theorem getD_map_range {α : Type} (g : ℕ → α) (n i : ℕ) (d : α) (h : i < n) :
    ((List.range n).map g).getD i d = g i := by
  rw [List.getD_eq_getElem _ _ (by simpa using h)]
  simp

/-- The sample of `generate_tone` at an in-range index. -/
theorem generate_tone_getD (noise : ℕ → ℝ) (frequency : ℝ) (duration : ℚ)
    (volume : ℝ) (waveform : String) (sample_rate : ℕ)
    (instrument : Option String) (i : ℕ) (h : i < num_samples sample_rate duration) :
    (generate_tone noise frequency duration volume waveform sample_rate
        instrument).getD i 0 =
      sample_value noise frequency volume waveform sample_rate instrument i := by
  unfold generate_tone
  exact getD_map_range _ _ _ _ h

/-- A `"sine"` sample with no instrument is `sin(2π·f·(i/sr)) * volume`. -/
theorem sample_value_sine (noise : ℕ → ℝ) (frequency volume : ℝ)
    (sample_rate : ℕ) (i : ℕ) :
    sample_value noise frequency volume "sine" sample_rate none i =
      Real.sin (2 * Real.pi * frequency * ((i : ℝ) / (sample_rate : ℝ))) *
        volume := by
  simp [sample_value, osc_value, sine_wave]

/-- C5, counterexample: the claimed sample period of 100 samples fails —
`sample[100] = 0.5·sin(2π·440·(100/44100)) = 0.5·sin((880/441)·π) ≠ 0`
while `sample[0] = 0` (the true period is `44100/440 ≈ 100.23` samples). -/
theorem c5_counterexample :
    (generate_tone (fun _ => 0) 440 1 (0.5 : ℝ) "sine" 44100 none).getD 100 0 ≠
      (generate_tone (fun _ => 0) 440 1 (0.5 : ℝ) "sine" 44100 none).getD 0 0 := by
  have h100 : (100 : ℕ) < num_samples 44100 1 := by decide
  have h0 : (0 : ℕ) < num_samples 44100 1 := by decide
  rw [generate_tone_getD _ _ _ _ _ _ _ _ h100, generate_tone_getD _ _ _ _ _ _ _ _ h0,
    sample_value_sine, sample_value_sine]
  push_cast
  have harg0 : 2 * Real.pi * 440 * ((0 : ℝ) / (44100 : ℝ)) = 0 := by
    norm_num
  have harg : 2 * Real.pi * 440 * ((100 : ℝ) / (44100 : ℝ)) =
      ((880 : ℝ) / 441) * Real.pi := by
    ring
  rw [harg0, harg, Real.sin_zero, zero_mul]
  intro hcontra
  have hsin : Real.sin (((880 : ℝ) / 441) * Real.pi) = 0 := by
    have : Real.sin (((880 : ℝ) / 441) * Real.pi) * 0.5 = 0 := hcontra
    linarith [this]
  obtain ⟨n, hn⟩ := Real.sin_eq_zero_iff.mp hsin
  have hpi : Real.pi ≠ 0 := Real.pi_ne_zero
  field_simp at hn
  have hn2 : ((n : ℝ) * 441) * Real.pi = 880 * Real.pi := by linarith [hn]
  have hn3 : (n : ℝ) * 441 = 880 := mul_right_cancel₀ hpi hn2
  have hint : n * 441 = 880 := by exact_mod_cast hn3
  omega

/-- C5, amended: `generate_tone(440, 1, 0.5, "sine")` at 44,100 Hz yields
exactly 44,100 samples, `sample[0] = 0`, every sample equals
`sin(2π·440·(i/44100)) · 0.5`, and the samples are periodic with exact
period 2205 samples (22 full cycles — one cycle is `44100/440 ≈ 100.23`
samples, not 100). -/
theorem c5_sine_example (noise : ℕ → ℝ) :
    (generate_tone noise 440 1 (0.5 : ℝ) "sine" 44100 none).length = 44100 ∧
      (generate_tone noise 440 1 (0.5 : ℝ) "sine" 44100 none).getD 0 0 = 0 ∧
      (∀ i : ℕ, i < 44100 →
        (generate_tone noise 440 1 (0.5 : ℝ) "sine" 44100 none).getD i 0 =
          Real.sin (2 * Real.pi * 440 * ((i : ℝ) / (44100 : ℝ))) * 0.5) ∧
      (∀ i : ℕ, i + 2205 < 44100 →
        (generate_tone noise 440 1 (0.5 : ℝ) "sine" 44100 none).getD (i + 2205) 0 =
          (generate_tone noise 440 1 (0.5 : ℝ) "sine" 44100 none).getD i 0) := by
  have hsamp : ∀ i : ℕ, i < 44100 →
      (generate_tone noise 440 1 (0.5 : ℝ) "sine" 44100 none).getD i 0 =
        Real.sin (2 * Real.pi * 440 * ((i : ℝ) / (44100 : ℝ))) * 0.5 := by
    intro i hi
    have hi' : i < num_samples 44100 1 := by
      have : num_samples 44100 1 = 44100 := by decide
      omega
    rw [generate_tone_getD _ _ _ _ _ _ _ _ hi', sample_value_sine]
    norm_num
  refine ⟨?_, ?_, hsamp, ?_⟩
  · rw [generate_tone_length]
    decide
  · rw [hsamp 0 (by norm_num)]
    norm_num
  · intro i hi
    rw [hsamp _ hi, hsamp i (by omega)]
    have harg : 2 * Real.pi * 440 * ((((i : ℕ) + 2205 : ℕ) : ℝ) / (44100 : ℝ)) =
        2 * Real.pi * 440 * ((i : ℝ) / (44100 : ℝ)) + (22 : ℤ) * (2 * Real.pi) := by
      push_cast
      ring
    rw [harg, Real.sin_add_int_mul_two_pi]

/-- C5, witness for the amended theorem: the buffer length at the zero noise
stream. -/
theorem c5_witness :
    (generate_tone (fun _ => 1) 440 1 (0.5 : ℝ) "sine" 44100 none).length = 44100 :=
  (c5_sine_example (fun _ => 1)).1

/-! ### C6: instrument envelope decay -/

/-- C6, counterexample: the claim compares raw sample magnitudes at `t = 0`
and `t = 2τ`; but every flute sample at `t = 0` is `sin(0)·1 = 0`, while at
frequency `1/10 > 0` the flute sample at `t = 2·(5/4)` (twice the `1/0.8`
time constant) is `sin(π/2)·e⁻² = e⁻² > 0`, so the `t = 0` magnitude does
not exceed it. -/
theorem c6_counterexample :
    (0 : ℝ) < 1/10 ∧
      ¬ (|flute_wave (1/10) 0| > |flute_wave (1/10) (2 * (5/4))|) := by
  refine ⟨by norm_num, ?_⟩
  have h0 : flute_wave (1/10) 0 = 0 := by
    simp [flute_wave, flute_env]
  have harg : 2 * Real.pi * ((1 : ℝ)/10) * (2 * (5/4)) = Real.pi / 2 := by
    ring
  have h2 : flute_wave (1/10) (2 * (5/4)) = Real.exp (-2) := by
    unfold flute_wave flute_env
    rw [harg, Real.sin_pi_div_two, one_mul]
    norm_num
  rw [h0, h2, abs_zero, abs_of_pos (Real.exp_pos _)]
  push_neg
  exact le_of_lt (Real.exp_pos _)

/-- Bound `|w₁·sin a + w₂·sin b + w₃·sin c| ≤ w₁ + w₂ + w₃` for nonnegative
weights. -/
theorem abs_sin_stack_le (w₁ w₂ w₃ a b c : ℝ) (h₁ : 0 ≤ w₁) (h₂ : 0 ≤ w₂)
    (h₃ : 0 ≤ w₃) :
    |w₁ * Real.sin a + w₂ * Real.sin b + w₃ * Real.sin c| ≤ w₁ + w₂ + w₃ := by
  have ha₁ := Real.neg_one_le_sin a
  have ha₂ := Real.sin_le_one a
  have hb₁ := Real.neg_one_le_sin b
  have hb₂ := Real.sin_le_one b
  have hc₁ := Real.neg_one_le_sin c
  have hc₂ := Real.sin_le_one c
  rw [abs_le]
  constructor <;> nlinarith

/-- C6, amended: for each of the piano, flute and bass models the amplitude
envelope at `t = 0` strictly exceeds the envelope at `t = 2×` the stated
time constant (`1/3`, `1/0.8 = 5/4`, `2/3` respectively), and every sample's
magnitude is bounded by the instrument's harmonic weight sum times its
envelope; the raw sample at `t = 0` itself is `0` for all three (each
harmonic is a sine), which is why the claim's comparison of raw sample
magnitudes fails. -/
theorem c6_envelope_decay :
    (piano_env 0 > piano_env (2 * (1/3)) ∧
        ∀ f t : ℝ, |piano_wave f t| ≤ 1.75 * piano_env t) ∧
      (flute_env 0 > flute_env (2 * (5/4)) ∧
        ∀ f t : ℝ, |flute_wave f t| ≤ flute_env t) ∧
      (bass_env 0 > bass_env (2 * (2/3)) ∧
        ∀ f t : ℝ, |bass_wave f t| ≤ bass_env t) := by
  have henv : ∀ (c t : ℝ), 0 < t → 0 < c → Real.exp (-(c * t)) < 1 := by
    intro c t ht hc
    rw [Real.exp_lt_one_iff]
    nlinarith
  refine ⟨⟨?_, ?_⟩, ⟨?_, ?_⟩, ⟨?_, ?_⟩⟩
  · unfold piano_env
    have := henv 3 (2 * (1/3)) (by norm_num) (by norm_num)
    simp only [mul_zero, neg_zero, Real.exp_zero]
    calc Real.exp (-3 * (2 * (1/3))) = Real.exp (-(3 * (2 * (1/3)))) := by ring_nf
      _ < 1 := this
  · intro f t
    unfold piano_wave piano_env
    rw [abs_mul, abs_of_pos (Real.exp_pos _)]
    have h := abs_sin_stack_le 1.0 0.5 0.25 (2 * Real.pi * f * t)
      (2 * Real.pi * f * 2 * t) (2 * Real.pi * f * 3 * t)
      (by norm_num) (by norm_num) (by norm_num)
    have hexp := Real.exp_pos (-3 * t)
    nlinarith
  · unfold flute_env
    have := henv 0.8 (2 * (5/4)) (by norm_num) (by norm_num)
    simp only [mul_zero, neg_zero, Real.exp_zero]
    calc Real.exp (-0.8 * (2 * (5/4))) = Real.exp (-(0.8 * (2 * (5/4)))) := by ring_nf
      _ < 1 := this
  · intro f t
    unfold flute_wave flute_env
    rw [abs_mul, abs_of_pos (Real.exp_pos _)]
    have h1 := Real.neg_one_le_sin (2 * Real.pi * f * t)
    have h2 := Real.sin_le_one (2 * Real.pi * f * t)
    have habs : |Real.sin (2 * Real.pi * f * t)| ≤ 1 := abs_le.mpr ⟨h1, h2⟩
    have hexp := Real.exp_pos (-0.8 * t)
    nlinarith
  · unfold bass_env
    have := henv 1.5 (2 * (2/3)) (by norm_num) (by norm_num)
    simp only [mul_zero, neg_zero, Real.exp_zero]
    calc Real.exp (-1.5 * (2 * (2/3))) = Real.exp (-(1.5 * (2 * (2/3)))) := by ring_nf
      _ < 1 := this
  · intro f t
    unfold bass_wave bass_env
    rw [abs_mul, abs_of_pos (Real.exp_pos _)]
    have h1 := Real.neg_one_le_sin (2 * Real.pi * (f * 0.5) * t)
    have h2 := Real.sin_le_one (2 * Real.pi * (f * 0.5) * t)
    have habs : |Real.sin (2 * Real.pi * (f * 0.5) * t)| ≤ 1 := abs_le.mpr ⟨h1, h2⟩
    have hexp := Real.exp_pos (-1.5 * t)
    nlinarith

/-! ### C7: no internal volume clamp; clipping only at serialization -/

/-- C7: `generate_tone` multiplies each synthesized sample by the volume with
no clamping of the volume or the product; with volume `2 > 1` the `"square"`
tone's sample at index 0 is `2`, outside `[-1, 1]`; serialization converts a
sample to PCM as `clamp(x, -1, 1) * 32767`, which is the identity scaling
`x * 32767` on in-range samples and clips the out-of-range sample `2` to
`32767`. -/
theorem c7_volume_unclamped :
    (∀ (noise : ℕ → ℝ) (frequency volume : ℝ) (waveform : String)
        (sample_rate : ℕ) (instrument : Option String) (duration : ℚ) (i : ℕ),
        i < num_samples sample_rate duration →
        (generate_tone noise frequency duration volume waveform sample_rate
            instrument).getD i 0 =
          sample_value noise frequency volume waveform sample_rate instrument i) ∧
      ((2 : ℝ) > 1 ∧
        (generate_tone (fun _ => 0) 440 1 (2 : ℝ) "square" 44100 none).getD 0 0 =
          2) ∧
      (∀ x : ℝ, -1 ≤ x → x ≤ 1 → save_wav_sample x = x * 32767) ∧
      save_wav_sample 2 = 32767 := by
  refine ⟨?_, ⟨by norm_num, ?_⟩, ?_, ?_⟩
  · intro noise frequency volume waveform sample_rate instrument duration i hi
    exact generate_tone_getD _ _ _ _ _ _ _ _ hi
  · have h0 : (0 : ℕ) < num_samples 44100 1 := by decide
    rw [generate_tone_getD _ _ _ _ _ _ _ _ h0]
    simp [sample_value, osc_value, square_wave]
  · intro x h1 h2
    unfold save_wav_sample
    rw [max_eq_right h1, min_eq_right h2]
  · unfold save_wav_sample
    norm_num

/-- C7, witness: the clamp identity at the in-range sample `1/2`. -/
theorem c7_witness : save_wav_sample (1/2) = (1/2 : ℝ) * 32767 :=
  c7_volume_unclamped.2.2.1 (1/2) (by norm_num) (by norm_num)

/-! ### C8: emotion generator pools and fallback -/

/-- Every emotion pool recorded in `emotion_patterns` is non-empty. -/
theorem emotion_patterns_some_ne_nil (e : String) (pool : List String)
    (h : emotion_patterns e = some pool) : pool ≠ [] := by
  unfold emotion_patterns at h
  split_ifs at h
  all_goals
    first
      | exact Option.noConfusion h
      | (obtain rfl := Option.some.inj h; decide)

/-- C8: for every draw stream and length, every note emitted by the emotion
generator for a supported label belongs to that label's fixed pool, and for
every unrecognized label the generator produces exactly what it produces for
`"happy"` (the fallback pool). -/
theorem c8_emotion_generator (rand : ℕ → ℕ) (len : ℕ) :
    (∀ e pool, emotion_patterns e = some pool →
        ∀ n ∈ generate_emotional_melody rand e len, n ∈ pool) ∧
      (∀ e, emotion_patterns e = none →
        generate_emotional_melody rand e len =
          generate_emotional_melody rand "happy" len) := by
  have hh : emotion_patterns "happy" =
      some ["C4", "E4", "G4", "C5", "A4", "G4", "E4"] := rfl
  constructor
  · intro e pool h n hn
    unfold generate_emotional_melody at hn
    rw [h] at hn
    simp only [Option.getD_some, List.mem_map] at hn
    obtain ⟨k, _, rfl⟩ := hn
    exact pyChoice_mem _ _ (emotion_patterns_some_ne_nil e pool h)
  · intro e h
    unfold generate_emotional_melody
    rw [h, hh]
    rfl

/-- C8, witness: the unrecognized label `"mystery"` generates exactly the
`"happy"` output, and the first `"sad"` note belongs to the sad pool. -/
theorem c8_witness :
    generate_emotional_melody (fun _ => 0) "mystery" 4 =
        generate_emotional_melody (fun _ => 0) "happy" 4 ∧
      ∀ n ∈ generate_emotional_melody (fun _ => 0) "sad" 4,
        n ∈ ["A3", "C4", "D4", "F4", "E4", "D4", "C4"] :=
  ⟨(c8_emotion_generator (fun _ => 0) 4).2 "mystery" rfl,
   (c8_emotion_generator (fun _ => 0) 4).1 "sad"
     ["A3", "C4", "D4", "F4", "E4", "D4", "C4"] rfl⟩

/-! ### C9: unknown waveform with no instrument yields silence -/

/-- C9: if no instrument is given and the waveform is none of `"sine"`,
`"square"`, `"saw"`, `"triangle"`, `"noise"`, then `generate_tone` does not
fail: it returns the normal-length buffer with every sample `0.0`. -/
theorem c9_unknown_waveform_silent (noise : ℕ → ℝ) (frequency : ℝ)
    (duration : ℚ) (volume : ℝ) (sample_rate : ℕ) (waveform : String)
    (h1 : waveform ≠ "sine") (h2 : waveform ≠ "square") (h3 : waveform ≠ "saw")
    (h4 : waveform ≠ "triangle") (h5 : waveform ≠ "noise") :
    generate_tone noise frequency duration volume waveform sample_rate none =
      List.replicate (num_samples sample_rate duration) 0 := by
  have hval : ∀ i ∈ List.range (num_samples sample_rate duration),
      sample_value noise frequency volume waveform sample_rate none i = 0 := by
    intro i _
    simp [sample_value, osc_value, h1, h2, h3, h4, h5]
    exact Or.inl (by norm_num)
  unfold generate_tone
  rw [List.map_congr_left hval, List.map_const', List.length_range]

/-- C9, witness: the unknown waveform `"pulse"` at sample rate 2 and
duration 1 yields the two-sample silent buffer. -/
theorem c9_witness :
    generate_tone (fun _ => 0) 440 1 1 "pulse" 2 none = List.replicate 2 0 := by
  have h := c9_unknown_waveform_silent (fun _ => 0) 440 1 1 2 "pulse"
    (by decide) (by decide) (by decide) (by decide) (by decide)
  have hn : num_samples 2 1 = 2 := by decide
  rw [h, hn]

/-! ### C10: every generatable note has a recorded frequency -/

theorem training_notes_have_freq :
    ∀ n ∈ training_melody, (NOTE_FREQ n).isSome := by decide

/-- Every note of every recorded emotion pool is a `NOTE_FREQ` key. -/
theorem emotion_pool_notes_have_freq (e : String) (pool : List String)
    (h : emotion_patterns e = some pool) :
    ∀ n ∈ pool, (NOTE_FREQ n).isSome := by
  unfold emotion_patterns at h
  split_ifs at h
  all_goals
    first
      | exact Option.noConfusion h
      | (obtain rfl := Option.some.inj h; decide)

/-- C10: every note the Markov generator or the emotion generator can emit
(for any draw stream, label and length) is a key of `NOTE_FREQ`, so the
`440.0` unknown-note fallback of `melody_to_frequencies` is never exercised
on generator output. -/
theorem c10_generated_notes_have_freq :
    (∀ (rand : ℕ → ℕ) (L : ℕ), ∀ n ∈ generate_ai_melody rand L,
        (NOTE_FREQ n).isSome) ∧
      (∀ (rand : ℕ → ℕ) (e : String) (L : ℕ),
        ∀ n ∈ generate_emotional_melody rand e L, (NOTE_FREQ n).isSome) := by
  constructor
  · intro rand L n hn
    refine training_notes_have_freq n ?_
    unfold generate_ai_melody at hn
    exact ai_melody_from_mem rand L 1 _
      (pyChoice_mem _ _ training_melody_ne_nil) n hn
  · intro rand e L n hn
    unfold generate_emotional_melody at hn
    simp only [List.mem_map, List.mem_range] at hn
    obtain ⟨k, _, rfl⟩ := hn
    cases he : emotion_patterns e with
    | some pool =>
      simp only [he, Option.getD_some]
      exact emotion_pool_notes_have_freq e pool he _
        (pyChoice_mem _ _ (emotion_patterns_some_ne_nil e pool he))
    | none =>
      simp only [he, Option.getD_none]
      have hh : (emotion_patterns "happy").getD ([] : List String) =
          ["C4", "E4", "G4", "C5", "A4", "G4", "E4"] := rfl
      rw [hh]
      exact emotion_pool_notes_have_freq "happy" _ rfl _
        (pyChoice_mem _ _ (by decide))

/-- C10, witness: the single note generated at length 1 with the zero draw
stream is `'C4'`, and it has a recorded frequency. -/
theorem c10_witness : (NOTE_FREQ "C4").isSome :=
  c10_generated_notes_have_freq.1 (fun _ => 0) 1 "C4" (by decide)

end AIMusic
